import Mathlib

/-!
Verification of the quota-enforcement core of the api-rate-limiter service
(src/main.py), shallowly embedded in Lean 4.

Embedding conventions:
* The SQLite database is the state: table `api_keys` is a list of rows in
  insertion order, table `logs` likewise (INSERT appends at the end, matching
  the AUTOINCREMENT primary key).
* Python ints are `Int`; row counts are `Nat` and are cast where the source
  compares them to a Python int.
* Wall-clock instants are `Nat` (seconds); `DATE(timestamp)` of the stored
  `"%Y-%m-%d %H:%M:%S"` string is modelled by `dateOf`, the calendar day of
  the instant. Lexicographic order on the stored zero-padded strings agrees
  with numeric order on the instants, so `ORDER BY timestamp DESC` is the
  descending order on `Nat` timestamps. Each handler receives the value of
  `datetime.now()` as an explicit `now` argument.
* `HTTPException` is an `Except.error` carrying status code and detail,
  exactly the two fields the source raises with.
* `generate_api_key` draws a fresh random token; the generated key is an
  explicit argument of `register`, and a collision with an existing key
  (impossible in practice, and rejected by the PRIMARY KEY constraint,
  which would abort the uncommitted INSERT) leaves the state unchanged.
-/

/-- A row of the `api_keys` table. -/
structure ApiKeyRow where
  api_key : String
  email : String
  rate_limit : Int
  created_at : Nat
deriving DecidableEq

/-- A row of the `logs` table. -/
structure LogRow where
  api_key : String
  timestamp : Nat
  endpoint : String
  status : String
deriving DecidableEq

/-- The whole SQLite database `api_limiter.db`. -/
structure DB where
  api_keys : List ApiKeyRow
  logs : List LogRow
deriving DecidableEq

/-- The empty database produced by `init_db`. -/
def initDB : DB := ⟨[], []⟩

/-- The calendar day containing instant `t`: the model of
`DATE(timestamp)` and of `get_today()`. -/
def dateOf (t : Nat) : Nat := t / 86400

/-- `SELECT rate_limit FROM api_keys WHERE api_key = ?`. -/
def lookupKey (db : DB) (k : String) : Option Int :=
  (db.api_keys.find? (fun row => row.api_key == k)).map (fun row => row.rate_limit)

/-- The row filter of `count_todays_requests`:
`WHERE api_key = ? AND DATE(timestamp) = ?`. -/
def matchesDay (k : String) (today : Nat) (r : LogRow) : Bool :=
  r.api_key == k && dateOf r.timestamp == today

/-- `count_todays_requests`: `SELECT COUNT(*) FROM logs WHERE api_key = ?
AND DATE(timestamp) = ?` — every row for the key on that day is counted,
whatever its `status`. -/
def count_todays_requests (db : DB) (api_key : String) (today : Nat) : Nat :=
  (db.logs.filter (matchesDay api_key today)).length

/-- `add_log`: `INSERT INTO logs (api_key, timestamp, endpoint, status)`. -/
def add_log (db : DB) (api_key : String) (t : Nat) (endpoint status : String) : DB :=
  { db with logs := db.logs ++ [⟨api_key, t, endpoint, status⟩] }

instance instDecEqExcept {ε α : Type} [DecidableEq ε] [DecidableEq α] :
    DecidableEq (Except ε α) := fun a b =>
  match a, b with
  | Except.error e, Except.error f =>
    if h : e = f then Decidable.isTrue (congrArg Except.error h)
    else Decidable.isFalse (fun hh => h (Except.error.inj hh))
  | Except.ok x, Except.ok y =>
    if h : x = y then Decidable.isTrue (congrArg Except.ok h)
    else Decidable.isFalse (fun hh => h (Except.ok.inj hh))
  | Except.error _, Except.ok _ => Decidable.isFalse (fun hh => Except.noConfusion hh)
  | Except.ok _, Except.error _ => Decidable.isFalse (fun hh => Except.noConfusion hh)

/-- The two fields of a raised `HTTPException`. -/
structure HTTPError where
  status_code : Nat
  detail : String
deriving DecidableEq

/-- Response model of `POST /register`. -/
structure RegisterResponse where
  api_key : String
  email : String
  rate_limit : Int
  message : String
deriving DecidableEq

/-- Response model of `GET /check-limit`. -/
structure RateLimitResponse where
  current_usage : Int
  rate_limit : Int
  remaining : Int
  status : String
deriving DecidableEq

/-- Response model entries of `GET /logs`. -/
structure LogEntry where
  timestamp : Nat
  endpoint : String
  status : String
deriving DecidableEq

/-- `register`: reject a duplicate email with HTTP 400, otherwise insert the
generated key with the requested `rate_limit` (the PRIMARY KEY constraint
aborts a colliding insert before the commit, leaving the table unchanged). -/
def register (db : DB) (email : String) (rate_limit : Int)
    (generated_key : String) (now : Nat) :
    Except HTTPError RegisterResponse × DB :=
  if db.api_keys.any (fun row => row.email == email) then
    (Except.error ⟨400, "Email already registered"⟩, db)
  else if db.api_keys.any (fun row => row.api_key == generated_key) then
    (Except.error ⟨500, "IntegrityError"⟩, db)
  else
    (Except.ok ⟨generated_key, email, rate_limit, "API key created successfully!"⟩,
      { db with api_keys := db.api_keys ++ [⟨generated_key, email, rate_limit, now⟩] })

/-- `check_limit`: look the key up, count the rows for today, deny with
HTTP 429 when `current_usage >= rate_limit`, admit otherwise; both outcomes
append one log row; an unknown key raises HTTP 401 and writes nothing. -/
def check_limit (db : DB) (x_api_key : String) (now : Nat) :
    Except HTTPError RateLimitResponse × DB :=
  match lookupKey db x_api_key with
  | none => (Except.error ⟨401, "Invalid API key"⟩, db)
  | some rate_limit =>
    let current_usage := count_todays_requests db x_api_key (dateOf now)
    if rate_limit ≤ (current_usage : Int) then
      (Except.error ⟨429, "Rate limit exceeded"⟩,
        add_log db x_api_key now "/check-limit" "rate_limit_exceeded")
    else
      (Except.ok ⟨(current_usage : Int) + 1, rate_limit,
          rate_limit - (current_usage : Int) - 1, "allowed"⟩,
        add_log db x_api_key now "/check-limit" "success")

/-- Newest-first comparison used by `ORDER BY timestamp DESC`. -/
def tsGE (a b : LogRow) : Prop := b.timestamp ≤ a.timestamp

instance : DecidableRel tsGE := fun a b => Nat.decLe b.timestamp a.timestamp

instance : IsTotal LogRow tsGE :=
  ⟨fun a b => (Nat.le_total b.timestamp a.timestamp).imp id id⟩

instance : IsTrans LogRow tsGE :=
  ⟨fun _ _ _ h₁ h₂ => le_trans h₂ h₁⟩

/-- SQLite `LIMIT ?`: a negative limit means no bound, otherwise at most
`limit` rows are returned. -/
def sqliteLimit {α : Type} (limit : Int) (l : List α) : List α :=
  if limit < 0 then l else l.take limit.toNat

/-- `get_logs`: 401 for an unknown key, otherwise the rows of the key
ordered newest first and cut to `limit`, projected to the response model.
The database is returned unchanged: the handler only reads. -/
def get_logs (db : DB) (x_api_key : String) (limit : Int) :
    Except HTTPError (List LogEntry) × DB :=
  if db.api_keys.any (fun row => row.api_key == x_api_key) then
    (Except.ok
      ((sqliteLimit limit
          (List.insertionSort tsGE
            (db.logs.filter (fun r => r.api_key == x_api_key)))).map
        (fun r => ⟨r.timestamp, r.endpoint, r.status⟩)),
      db)
  else
    (Except.error ⟨401, "Invalid API key"⟩, db)

/-- Count of Admitted records of the credential in the window, following the
spec: records whose `outcome` is Admitted, which `check_limit` writes as
status `"success"`. -/
def spec_count_admitted (db : DB) (k : String) (day : Nat) : Nat :=
  (db.logs.filter (fun r => matchesDay k day r && r.status == "success")).length

/-- Count of Denied records of the credential in the window: status
`"rate_limit_exceeded"`. -/
def spec_count_denied (db : DB) (k : String) (day : Nat) : Nat :=
  (db.logs.filter (fun r => matchesDay k day r && r.status == "rate_limit_exceeded")).length

/-! ### Interleaved model of two concurrent check_limit calls

`count_todays_requests` and `add_log` each open and close their own SQLite
connection, so the count query and the insert of one `check_limit` call are
separate transactions: the database can change between them. The phases
below embed the body of `check_limit` after the key lookup (the `api_keys`
table is never mutated concurrently, so the looked-up quota `q` is a fixed
parameter); a scheduler interleaves the phases of two calls. -/

/-- Progress of one in-flight `check_limit` call: not yet counted, counted
`n` rows, or finished with the admission verdict. -/
inductive ThreadPhase where
  | start : ThreadPhase
  | counted : Nat → ThreadPhase
  | finished : Bool → ThreadPhase
deriving DecidableEq

/-- One micro-step of a single `check_limit` call for key `k`, quota `q`,
instant `now`: first the count query, then the decision plus its log
insert (which the source performs together, against a database that may
have changed since the count). -/
inductive ThreadStep (k : String) (q : Int) (now : Nat) :
    ThreadPhase × DB → ThreadPhase × DB → Prop where
  | readCount (db : DB) :
      ThreadStep k q now (ThreadPhase.start, db)
        (ThreadPhase.counted (count_todays_requests db k (dateOf now)), db)
  | appendAdmit (db : DB) (n : Nat) (h : (n : Int) < q) :
      ThreadStep k q now (ThreadPhase.counted n, db)
        (ThreadPhase.finished true, add_log db k now "/check-limit" "success")
  | appendDeny (db : DB) (n : Nat) (h : q ≤ (n : Int)) :
      ThreadStep k q now (ThreadPhase.counted n, db)
        (ThreadPhase.finished false, add_log db k now "/check-limit" "rate_limit_exceeded")

/-- Shared database plus the phases of two concurrent calls. -/
structure ConcState where
  db : DB
  t1 : ThreadPhase
  t2 : ThreadPhase
deriving DecidableEq

/-- The scheduler lets either call take its next micro-step. -/
inductive ConcStep (k : String) (q : Int) (now : Nat) : ConcState → ConcState → Prop where
  | stepLeft {s : ConcState} {p : ThreadPhase} {db' : DB} :
      ThreadStep k q now (s.t1, s.db) (p, db') → ConcStep k q now s ⟨db', p, s.t2⟩
  | stepRight {s : ConcState} {p : ThreadPhase} {db' : DB} :
      ThreadStep k q now (s.t2, s.db) (p, db') → ConcStep k q now s ⟨db', s.t1, p⟩

/-- Finitely many interleaved micro-steps. -/
def ConcReach (k : String) (q : Int) (now : Nat) : ConcState → ConcState → Prop :=
  Relation.ReflTransGen (ConcStep k q now)

/-! ### Concrete databases used as witnesses -/

/-- One credential `k1` with quota 1, empty ledger. -/
def dbR : DB := (register initDB "a@x.com" 1 "k1" 0).2

/-- `dbR` after one admitted check at instant 5 (day 0). -/
def dbW3 : DB := (check_limit dbR "k1" 5).2

/-- `dbR` after one admitted check at instant 1 (day 0). -/
def dbC6 : DB := (check_limit dbR "k1" 1).2

/-- `dbC6` after a further denied check at instant 2: ledger holds one
`success` and one `rate_limit_exceeded` row, both on day 0. -/
def dbC2 : DB := (check_limit dbC6 "k1" 2).2

/-- One credential `k1` with quota 2, empty ledger. -/
def dbW5 : DB := (register initDB "b@x.com" 2 "k1" 0).2

/-- One credential `k7` with quota 1, empty ledger. -/
def dbW7 : DB := (register initDB "c@x.com" 1 "k7" 0).2

/-- Credential `k1` with quota 2 and one `success` row at instant 1. -/
def dbW8 : DB := (check_limit (register initDB "a@x.com" 2 "k1" 0).2 "k1" 1).2

/-! ### Branch lemmas for the handlers -/

theorem check_limit_unknown (db : DB) (k : String) (now : Nat)
    (h : lookupKey db k = none) :
    check_limit db k now = (Except.error ⟨401, "Invalid API key"⟩, db) := by
  simp [check_limit, h]

theorem check_limit_denied (db : DB) (k : String) (now : Nat) (q : Int)
    (h : lookupKey db k = some q)
    (hq : q ≤ (count_todays_requests db k (dateOf now) : Int)) :
    check_limit db k now =
      (Except.error ⟨429, "Rate limit exceeded"⟩,
       add_log db k now "/check-limit" "rate_limit_exceeded") := by
  simp only [check_limit, h]
  rw [if_pos hq]

theorem check_limit_allowed (db : DB) (k : String) (now : Nat) (q : Int)
    (h : lookupKey db k = some q)
    (hq : (count_todays_requests db k (dateOf now) : Int) < q) :
    check_limit db k now =
      (Except.ok ⟨(count_todays_requests db k (dateOf now) : Int) + 1, q,
          q - (count_todays_requests db k (dateOf now) : Int) - 1, "allowed"⟩,
       add_log db k now "/check-limit" "success") := by
  simp only [check_limit, h]
  rw [if_neg (not_le.mpr hq)]

theorem register_dup_email (db : DB) (email : String) (rl : Int) (g : String) (now : Nat)
    (h : db.api_keys.any (fun row => row.email == email) = true) :
    register db email rl g now = (Except.error ⟨400, "Email already registered"⟩, db) := by
  simp [register, h]

theorem register_dup_key (db : DB) (email : String) (rl : Int) (g : String) (now : Nat)
    (h1 : db.api_keys.any (fun row => row.email == email) = false)
    (h2 : db.api_keys.any (fun row => row.api_key == g) = true) :
    register db email rl g now = (Except.error ⟨500, "IntegrityError"⟩, db) := by
  simp [register, h1, h2]

theorem register_ok (db : DB) (email : String) (rl : Int) (g : String) (now : Nat)
    (h1 : db.api_keys.any (fun row => row.email == email) = false)
    (h2 : db.api_keys.any (fun row => row.api_key == g) = false) :
    register db email rl g now =
      (Except.ok ⟨g, email, rl, "API key created successfully!"⟩,
       { db with api_keys := db.api_keys ++ [⟨g, email, rl, now⟩] }) := by
  simp [register, h1, h2]

theorem get_logs_snd (db : DB) (k : String) (limit : Int) :
    (get_logs db k limit).2 = db := by
  unfold get_logs
  split <;> rfl

/-! ### Sequential executions of the public operations -/

/-- One invocation of a public handler, as a relation between the database
before and after the call. `registerStep` quantifies over the generated
key; `checkStep` and `registerStep` quantify over the wall clock. -/
inductive Step : DB → DB → Prop where
  | registerStep (email : String) (rate_limit : Int) (g : String) (now : Nat) (db : DB) :
      Step db (register db email rate_limit g now).2
  | checkStep (k : String) (now : Nat) (db : DB) :
      Step db (check_limit db k now).2
  | logsStep (k : String) (limit : Int) (db : DB) :
      Step db (get_logs db k limit).2

/-- Databases reachable from the freshly initialised store by a sequential
execution of the public operations. -/
inductive Reachable : DB → Prop where
  | init : Reachable initDB
  | step {db db' : DB} : Reachable db → Step db db' → Reachable db'

/-- Some row of `api_keys` holds the key `k`. -/
def RegisteredKey (db : DB) (k : String) : Prop :=
  ∃ row ∈ db.api_keys, row.api_key = k

/-- Every log row belongs to a registered key. -/
def LogKeysRegistered (db : DB) : Prop :=
  ∀ r ∈ db.logs, RegisteredKey db r.api_key

/-- Every log row carries one of the two statuses the engine writes. -/
def StatusesOk (db : DB) : Prop :=
  ∀ r ∈ db.logs, r.status = "success" ∨ r.status = "rate_limit_exceeded"

/-- Per-credential, per-window quota bound on Admitted records. -/
def QuotaInv (db : DB) : Prop :=
  ∀ k q, lookupKey db k = some q → ∀ d, (spec_count_admitted db k d : Int) ≤ max q 0

/-- The inductive invariant carried through every reachable state. -/
def CoreInv (db : DB) : Prop := LogKeysRegistered db ∧ StatusesOk db ∧ QuotaInv db

/-! ### List-level helper lemmas -/

theorem length_filter_and_le {α : Type} (p q : α → Bool) (l : List α) :
    (l.filter fun a => p a && q a).length ≤ (l.filter p).length := by
  induction l with
  | nil => simp
  | cons a t ih =>
    by_cases hp : p a
    · by_cases hq : q a
      · simpa [List.filter_cons, hp, hq] using Nat.succ_le_succ ih
      · simp only [List.filter_cons, hp, hq, Bool.and_false, if_false, if_true]
        exact le_trans ih (Nat.le_succ _)
    · simp only [List.filter_cons, hp, Bool.false_and, if_false]
      exact ih

theorem admitted_le_count (db : DB) (k : String) (d : Nat) :
    spec_count_admitted db k d ≤ count_todays_requests db k d :=
  length_filter_and_le (matchesDay k d) (fun r => r.status == "success") db.logs

theorem spec_count_admitted_add_log (db : DB) (k0 : String) (t : Nat) (e s : String)
    (k : String) (d : Nat) :
    spec_count_admitted (add_log db k0 t e s) k d =
      spec_count_admitted db k d +
        (if matchesDay k d ⟨k0, t, e, s⟩ && s == "success" then 1 else 0) := by
  by_cases h : (matchesDay k d ⟨k0, t, e, s⟩ && (s == "success")) = true
  · simp [spec_count_admitted, add_log, List.filter_append, h]
  · simp [spec_count_admitted, add_log, List.filter_append, h]

theorem count_todays_requests_add_log (db : DB) (k0 : String) (t : Nat) (e s : String)
    (k : String) (d : Nat) :
    count_todays_requests (add_log db k0 t e s) k d =
      count_todays_requests db k d +
        (if matchesDay k d ⟨k0, t, e, s⟩ then 1 else 0) := by
  by_cases h : matchesDay k d ⟨k0, t, e, s⟩ = true
  · simp [count_todays_requests, add_log, List.filter_append, h]
  · simp [count_todays_requests, add_log, List.filter_append, h]

theorem lookupKey_add_log (db : DB) (k0 : String) (t : Nat) (e s : String) (k : String) :
    lookupKey (add_log db k0 t e s) k = lookupKey db k := rfl

theorem registeredKey_of_lookup (db : DB) (k : String) (q : Int)
    (h : lookupKey db k = some q) : RegisteredKey db k := by
  unfold lookupKey at h
  cases hf : db.api_keys.find? (fun row => row.api_key == k) with
  | none => rw [hf] at h; cases h
  | some row =>
    refine ⟨row, List.mem_of_find?_eq_some hf, ?_⟩
    have hp := List.find?_some hf
    simpa using hp

theorem not_registered_of_any_eq_false (db : DB) (g : String)
    (h : db.api_keys.any (fun row => row.api_key == g) = false) :
    ¬ RegisteredKey db g := by
  rintro ⟨row, hmem, heq⟩
  have := List.any_eq_false.mp h row hmem
  simp [heq] at this

theorem lookupKey_append_row (db : DB) (row : ApiKeyRow) (k : String) :
    lookupKey { db with api_keys := db.api_keys ++ [row] } k =
      ((lookupKey db k).or (if row.api_key == k then some row.rate_limit else none)) := by
  unfold lookupKey
  cases hf : db.api_keys.find? (fun r => r.api_key == k) with
  | some row0 => simp [List.find?_append, hf]
  | none =>
    by_cases hr : (row.api_key == k) = true
    · simp [List.find?_append, hf, List.find?, hr]
    · simp [List.find?_append, hf, List.find?, hr]

/-! ### The invariant is inductive -/

theorem coreInv_initDB : CoreInv initDB := by
  refine ⟨?_, ?_, ?_⟩
  · intro r hr; cases hr
  · intro r hr; cases hr
  · intro k q hlook d
    have : lookupKey initDB k = none := rfl
    rw [this] at hlook; cases hlook

theorem coreInv_register (db : DB) (email : String) (rl : Int) (g : String) (now : Nat)
    (hinv : CoreInv db) : CoreInv (register db email rl g now).2 := by
  obtain ⟨hkeys, hstat, hquota⟩ := hinv
  by_cases h1 : db.api_keys.any (fun row => row.email == email) = true
  · rw [register_dup_email db email rl g now h1]
    exact ⟨hkeys, hstat, hquota⟩
  · have h1' : db.api_keys.any (fun row => row.email == email) = false :=
      Bool.eq_false_iff.mpr h1
    by_cases h2 : db.api_keys.any (fun row => row.api_key == g) = true
    · rw [register_dup_key db email rl g now h1' h2]
      exact ⟨hkeys, hstat, hquota⟩
    · have h2' : db.api_keys.any (fun row => row.api_key == g) = false :=
        Bool.eq_false_iff.mpr h2
      rw [register_ok db email rl g now h1' h2']
      dsimp only
      refine ⟨?_, ?_, ?_⟩
      · intro r hr
        obtain ⟨row, hmem, he⟩ := hkeys r hr
        exact ⟨row, List.mem_append_left _ hmem, he⟩
      · intro r hr
        exact hstat r hr
      · intro k q hlook d
        rw [lookupKey_append_row] at hlook
        cases hf : lookupKey db k with
        | some q0 =>
          rw [hf] at hlook
          have hq0 : q0 = q := Option.some.inj hlook
          subst hq0
          exact hquota k q0 hf d
        | none =>
          rw [hf] at hlook
          have hlook' : (if (g == k) = true then some rl else none) = some q := hlook
          by_cases hg : (g == k) = true
          · rw [if_pos hg] at hlook'
            have hqrl : rl = q := Option.some.inj hlook'
            have hgk : g = k := by simpa using hg
            subst hgk
            subst hqrl
            have hnr : ¬ RegisteredKey db g := not_registered_of_any_eq_false db g h2'
            have hnolog : ∀ r ∈ db.logs, r.api_key ≠ g := by
              intro r hr heq
              exact hnr (heq ▸ hkeys r hr)
            have hfilter : db.logs.filter
                (fun r => matchesDay g d r && r.status == "success") = [] := by
              refine List.filter_eq_nil_iff.mpr ?_
              intro r hr hcontra
              simp only [matchesDay, Bool.and_eq_true] at hcontra
              obtain ⟨⟨hk, _⟩, _⟩ := hcontra
              exact hnolog r hr (by simpa using hk)
            have hzero : spec_count_admitted
                { db with api_keys := db.api_keys ++ [⟨g, email, rl, now⟩] } g d = 0 := by
              simp [spec_count_admitted, hfilter]
            rw [hzero]
            exact_mod_cast le_max_right rl 0
          · rw [if_neg hg] at hlook'
            cases hlook'

theorem coreInv_check (db : DB) (k : String) (now : Nat)
    (hinv : CoreInv db) : CoreInv (check_limit db k now).2 := by
  obtain ⟨hkeys, hstat, hquota⟩ := hinv
  cases hl : lookupKey db k with
  | none =>
    rw [check_limit_unknown db k now hl]
    exact ⟨hkeys, hstat, hquota⟩
  | some q =>
    by_cases hge : q ≤ (count_todays_requests db k (dateOf now) : Int)
    · rw [check_limit_denied db k now q hl hge]
      dsimp only
      refine ⟨?_, ?_, ?_⟩
      · intro r hr
        rcases List.mem_append.mp hr with h | h
        · exact hkeys r h
        · have hrw : r = ⟨k, now, "/check-limit", "rate_limit_exceeded"⟩ := by
            simpa using h
          subst hrw
          exact registeredKey_of_lookup db k q hl
      · intro r hr
        rcases List.mem_append.mp hr with h | h
        · exact hstat r h
        · have hrw : r = ⟨k, now, "/check-limit", "rate_limit_exceeded"⟩ := by
            simpa using h
          subst hrw
          exact Or.inr rfl
      · intro k' q' hlook d
        rw [lookupKey_add_log] at hlook
        rw [spec_count_admitted_add_log]
        have hfalse : (matchesDay k' d ⟨k, now, "/check-limit", "rate_limit_exceeded"⟩ &&
            ("rate_limit_exceeded" == "success")) = false := by
          have hss : ("rate_limit_exceeded" == "success") = false := by decide
          rw [hss, Bool.and_false]
        rw [hfalse]
        simpa using hquota k' q' hlook d
    · have hlt : (count_todays_requests db k (dateOf now) : Int) < q := not_le.mp hge
      rw [check_limit_allowed db k now q hl hlt]
      dsimp only
      refine ⟨?_, ?_, ?_⟩
      · intro r hr
        rcases List.mem_append.mp hr with h | h
        · exact hkeys r h
        · have hrw : r = ⟨k, now, "/check-limit", "success"⟩ := by simpa using h
          subst hrw
          exact registeredKey_of_lookup db k q hl
      · intro r hr
        rcases List.mem_append.mp hr with h | h
        · exact hstat r h
        · have hrw : r = ⟨k, now, "/check-limit", "success"⟩ := by simpa using h
          subst hrw
          exact Or.inl rfl
      · intro k' q' hlook d
        rw [lookupKey_add_log] at hlook
        rw [spec_count_admitted_add_log]
        by_cases hm : matchesDay k' d ⟨k, now, "/check-limit", "success"⟩ = true
        · obtain ⟨hk', hd⟩ : k = k' ∧ dateOf now = d := by
            simpa [matchesDay] using hm
          subst hk'
          subst hd
          have hq' : q' = q := by
            rw [hlook] at hl
            exact Option.some.inj hl
          subst hq'
          have htrue : (matchesDay k (dateOf now) ⟨k, now, "/check-limit", "success"⟩ &&
              ("success" == "success")) = true := by
            rw [hm]
            rfl
          rw [if_pos htrue]
          have h1 : (spec_count_admitted db k (dateOf now) : Int) ≤
              (count_todays_requests db k (dateOf now) : Int) := by
            exact_mod_cast admitted_le_count db k (dateOf now)
          have hposq : (0:Int) < q' := lt_of_le_of_lt (Int.ofNat_nonneg _) hlt
          rw [max_eq_left (le_of_lt hposq)]
          push_cast
          omega
        · have hmf : matchesDay k' d ⟨k, now, "/check-limit", "success"⟩ = false :=
            Bool.eq_false_iff.mpr hm
          rw [hmf, Bool.false_and]
          simpa using hquota k' q' hlook d

theorem coreInv_get_logs (db : DB) (k : String) (limit : Int)
    (hinv : CoreInv db) : CoreInv (get_logs db k limit).2 := by
  rw [get_logs_snd]
  exact hinv

theorem coreInv_step {db db' : DB} (hinv : CoreInv db) (hstep : Step db db') :
    CoreInv db' := by
  cases hstep with
  | registerStep email rl g now db => exact coreInv_register db email rl g now hinv
  | checkStep k now db => exact coreInv_check db k now hinv
  | logsStep k limit db => exact coreInv_get_logs db k limit hinv

theorem coreInv_of_reachable {db : DB} (h : Reachable db) : CoreInv db := by
  induction h with
  | init => exact coreInv_initDB
  | step _ hstep ih => exact coreInv_step ih hstep

/-! ### Supporting lemma: every row is either success or rate_limit_exceeded -/

theorem length_filter_status_split (k : String) (d : Nat) (l : List LogRow)
    (h : ∀ r ∈ l, r.status = "success" ∨ r.status = "rate_limit_exceeded") :
    (l.filter (matchesDay k d)).length =
      (l.filter (fun r => matchesDay k d r && r.status == "success")).length +
      (l.filter (fun r => matchesDay k d r && r.status == "rate_limit_exceeded")).length := by
  induction l with
  | nil => simp
  | cons a t ih =>
    have ht : ∀ r ∈ t, r.status = "success" ∨ r.status = "rate_limit_exceeded" :=
      fun r hr => h r (List.mem_cons_of_mem a hr)
    have iht := ih ht
    by_cases hm : matchesDay k d a = true
    · rcases h a (List.mem_cons_self a t) with hs | hs
      · have hb1 : (a.status == "success") = true := by rw [hs]; decide
        have hb2 : (a.status == "rate_limit_exceeded") = false := by rw [hs]; decide
        simp [List.filter_cons, hm, hb1, hb2]
        omega
      · have hb1 : (a.status == "success") = false := by rw [hs]; decide
        have hb2 : (a.status == "rate_limit_exceeded") = true := by rw [hs]; decide
        simp [List.filter_cons, hm, hb1, hb2]
        omega
    · have hmf : matchesDay k d a = false := Bool.eq_false_iff.mpr hm
      simpa [List.filter_cons, hmf] using iht

/-! ### Claims -/

/-- Claim C2 counterexample: in the reachable state `dbC2` (quota 1, one
admitted and one denied check on day 0) the count that check reads in step 3
is 2, while the number of Admitted records in the window is 1 — the Denied
record contributes to the count the code uses, refuting the claim that only
Admitted records are counted. -/
theorem usage_count_includes_denied :
    count_todays_requests dbC2 "k1" 0 = 2 ∧ spec_count_admitted dbC2 "k1" 0 = 1 := by
  constructor
  · decide
  · decide

/-- Claim C2 (amended): in every reachable state, the usage count used by
check in step 3 equals the number of ALL ledger records for the credential
with timestamp inside the window — Admitted and Denied records alike. -/
theorem usage_count_counts_all_outcomes {db : DB} (hreach : Reachable db)
    (k : String) (d : Nat) :
    count_todays_requests db k d = spec_count_admitted db k d + spec_count_denied db k d := by
  have hstat := (coreInv_of_reachable hreach).2.1
  simpa [count_todays_requests, spec_count_admitted, spec_count_denied] using
    length_filter_status_split k d db.logs hstat

theorem usage_count_counts_all_outcomes_witness :
    count_todays_requests dbC2 "k1" 0 =
      spec_count_admitted dbC2 "k1" 0 + spec_count_denied dbC2 "k1" 0 :=
  usage_count_counts_all_outcomes
    (Reachable.step (Reachable.step (Reachable.step Reachable.init
      (Step.registerStep "a@x.com" 1 "k1" 0 initDB))
      (Step.checkStep "k1" 1 dbR))
      (Step.checkStep "k1" 2 dbC6))
    "k1" 0

/-- Claim C3: in every reachable state, a credential with positive quota `q`
has at most `q` Admitted ledger records in any single accounting window. -/
theorem admitted_records_within_quota {db : DB} {k : String} {q : Int}
    (hreach : Reachable db) (hq : lookupKey db k = some q) (hpos : 1 ≤ q) (d : Nat) :
    (spec_count_admitted db k d : Int) ≤ q := by
  have h := (coreInv_of_reachable hreach).2.2 k q hq d
  rwa [max_eq_left (le_trans zero_le_one hpos)] at h

theorem admitted_records_within_quota_witness :
    lookupKey dbW3 "k1" = some 1 ∧ (spec_count_admitted dbW3 "k1" 0 : Int) ≤ 1 := by
  refine ⟨by decide, admitted_records_within_quota ?_ (by decide) (by decide) 0⟩
  show Reachable dbW3
  exact Reachable.step (Reachable.step Reachable.init
    (Step.registerStep "a@x.com" 1 "k1" 0 initDB))
    (Step.checkStep "k1" 5 dbR)

/-- Claim C4: a check with an unregistered key fails with the
invalid-credential error (HTTP 401) and returns the database exactly as it
was: no ledger row, no other change. -/
theorem unknown_key_writes_nothing (db : DB) (k : String) (now : Nat)
    (h : lookupKey db k = none) :
    check_limit db k now = (Except.error ⟨401, "Invalid API key"⟩, db) :=
  check_limit_unknown db k now h

theorem unknown_key_writes_nothing_witness :
    lookupKey initDB "nope" = none ∧
      check_limit initDB "nope" 5 = (Except.error ⟨401, "Invalid API key"⟩, initDB) :=
  ⟨rfl, unknown_key_writes_nothing initDB "nope" 5 rfl⟩

/-- Claim C5: an admitted check on a known credential with quota `q` and
current-window usage `used` returns `current_usage = used + 1`,
`rate_limit = q` and `remaining = max 0 (q - used - 1)` (the source writes
`q - used - 1`, which on the admitted path is never negative, so it equals
the max). -/
theorem allowed_response_fields (db : DB) (k : String) (now : Nat) (q : Int)
    (resp : RateLimitResponse) (db' : DB)
    (hq : lookupKey db k = some q)
    (hok : check_limit db k now = (Except.ok resp, db')) :
    resp.current_usage = (count_todays_requests db k (dateOf now) : Int) + 1 ∧
    resp.rate_limit = q ∧
    resp.remaining = max 0 (q - (count_todays_requests db k (dateOf now) : Int) - 1) ∧
    resp.status = "allowed" := by
  by_cases hge : q ≤ (count_todays_requests db k (dateOf now) : Int)
  · rw [check_limit_denied db k now q hq hge] at hok
    injection hok with h1 h2
    exact Except.noConfusion h1
  · have hlt := not_le.mp hge
    rw [check_limit_allowed db k now q hq hlt] at hok
    injection hok with h1 h2
    have h3 := Except.ok.inj h1
    subst h3
    refine ⟨rfl, rfl, ?_, rfl⟩
    have hnn : (0:Int) ≤ q - (count_todays_requests db k (dateOf now) : Int) - 1 := by
      omega
    rw [max_eq_right hnn]

theorem allowed_response_fields_witness :
    lookupKey dbW5 "k1" = some 2 ∧
    ((⟨1, 2, 1, "allowed"⟩ : RateLimitResponse).current_usage =
        (count_todays_requests dbW5 "k1" (dateOf 5) : Int) + 1 ∧
      (⟨1, 2, 1, "allowed"⟩ : RateLimitResponse).rate_limit = 2 ∧
      (⟨1, 2, 1, "allowed"⟩ : RateLimitResponse).remaining =
        max 0 (2 - (count_todays_requests dbW5 "k1" (dateOf 5) : Int) - 1) ∧
      (⟨1, 2, 1, "allowed"⟩ : RateLimitResponse).status = "allowed") :=
  ⟨by decide,
    allowed_response_fields dbW5 "k1" 5 2 ⟨1, 2, 1, "allowed"⟩
      (add_log dbW5 "k1" 5 "/check-limit" "success") (by decide) (by decide)⟩

/-- Claim C6 counterexample: in the reachable state `dbC6` (quota 1, one
admitted check already logged on day 0) a further check is denied, and the
value returned to the caller is the bare `HTTPException` 429 with detail
string only — a value of a type with no `quota`, `usedCount` or `remaining`
fields, refuting the claim that a denied result carries them. -/
theorem denied_response_is_bare_429 :
    (check_limit dbC6 "k1" 2).1 = Except.error ⟨429, "Rate limit exceeded"⟩ := by
  decide

/-- Claim C6 (amended): a denied check on a known credential is reported as
a distinguishable expected outcome — HTTP 429 with detail
`"Rate limit exceeded"`, not a crash — but it carries no quota, usedCount or
remaining values (the error type has only a status code and a detail
string). -/
theorem denied_returns_distinguishable_429 (db : DB) (k : String) (now : Nat) (q : Int)
    (hq : lookupKey db k = some q)
    (hge : q ≤ (count_todays_requests db k (dateOf now) : Int)) :
    (check_limit db k now).1 = Except.error ⟨429, "Rate limit exceeded"⟩ := by
  rw [check_limit_denied db k now q hq hge]

theorem denied_returns_distinguishable_429_witness :
    lookupKey dbC6 "k1" = some 1 ∧
      (1:Int) ≤ (count_todays_requests dbC6 "k1" (dateOf 2) : Int) ∧
      (check_limit dbC6 "k1" 2).1 = Except.error ⟨429, "Rate limit exceeded"⟩ :=
  ⟨by decide, by decide,
    denied_returns_distinguishable_429 dbC6 "k1" 2 1 (by decide) (by decide)⟩

/-- Claim C7: every check on a known credential appends exactly one row to
the ledger — on the admitted path with status `"success"`, on the denied
path with status `"rate_limit_exceeded"` — carrying the credential id, the
endpoint `"/check-limit"` and the outcome of this very decision (the `if`
condition below is exactly the admission test of `check_limit`). -/
theorem known_key_appends_one_record (db : DB) (k : String) (now : Nat) (q : Int)
    (hq : lookupKey db k = some q) :
    (check_limit db k now).2.logs =
      db.logs ++ [⟨k, now, "/check-limit",
        if (count_todays_requests db k (dateOf now) : Int) < q then "success"
        else "rate_limit_exceeded"⟩] := by
  by_cases hge : q ≤ (count_todays_requests db k (dateOf now) : Int)
  · rw [check_limit_denied db k now q hq hge]
    rw [if_neg (not_lt.mpr hge)]
    rfl
  · have hlt := not_le.mp hge
    rw [check_limit_allowed db k now q hq hlt]
    rw [if_pos hlt]
    rfl

theorem known_key_appends_one_record_witness :
    lookupKey dbW7 "k7" = some 1 ∧
      (check_limit dbW7 "k7" 3).2.logs = dbW7.logs ++ [⟨"k7", 3, "/check-limit",
        if (count_todays_requests dbW7 "k7" (dateOf 3) : Int) < 1 then "success"
        else "rate_limit_exceeded"⟩] :=
  ⟨by decide, known_key_appends_one_record dbW7 "k7" 3 1 (by decide)⟩

/-- Claim C8 counterexample: `limit` is a caller-supplied Python int, and
SQLite treats a negative `LIMIT` as unbounded, so `get_logs` with
`limit = -1` on a ledger holding one row returns a sequence of length 1,
which is not ≤ -1 — refuting the claim for every limit. -/
theorem negative_limit_returns_all :
    (get_logs dbW8 "k1" (-1)).1 = Except.ok [⟨1, "/check-limit", "success"⟩] ∧
      ¬ ((1:Int) ≤ -1) := by
  constructor
  · decide
  · decide

/-- Claim C8 (amended): for every known credential and every NON-NEGATIVE
limit, the returned sequence has length at most `limit` and is ordered
newest first (non-increasing timestamp); a negative limit returns all of
the rows (SQLite LIMIT semantics), still newest first. -/
theorem get_logs_sorted_and_bounded (db : DB) (k : String) (limit : Int)
    (l : List LogEntry)
    (hlim : 0 ≤ limit)
    (hok : (get_logs db k limit).1 = Except.ok l) :
    l.length ≤ limit.toNat ∧
      List.Sorted (fun a b : LogEntry => b.timestamp ≤ a.timestamp) l := by
  unfold get_logs at hok
  by_cases hk : db.api_keys.any (fun row => row.api_key == k) = true
  · rw [if_pos hk] at hok
    dsimp only at hok
    have hl : l = (sqliteLimit limit (List.insertionSort tsGE
        (db.logs.filter (fun r => r.api_key == k)))).map
        (fun r => ⟨r.timestamp, r.endpoint, r.status⟩) := (Except.ok.inj hok).symm
    subst hl
    have hnneg : ¬ limit < 0 := not_lt.mpr hlim
    constructor
    · rw [List.length_map]
      unfold sqliteLimit
      rw [if_neg hnneg]
      exact List.length_take_le _ _
    · have hsorted : List.Sorted tsGE (List.insertionSort tsGE
          (db.logs.filter (fun r => r.api_key == k))) :=
        List.sorted_insertionSort tsGE _
      have htake : List.Sorted tsGE (sqliteLimit limit (List.insertionSort tsGE
          (db.logs.filter (fun r => r.api_key == k)))) := by
        unfold sqliteLimit
        rw [if_neg hnneg]
        exact hsorted.sublist (List.take_sublist _ _)
      exact List.pairwise_map.mpr htake
  · rw [if_neg hk] at hok
    exact Except.noConfusion hok

theorem get_logs_sorted_and_bounded_witness :
    (get_logs dbW8 "k1" 50).1 = Except.ok [⟨1, "/check-limit", "success"⟩] ∧
      ([(⟨1, "/check-limit", "success"⟩ : LogEntry)].length ≤ (50:Int).toNat ∧
        List.Sorted (fun a b : LogEntry => b.timestamp ≤ a.timestamp)
          [⟨1, "/check-limit", "success"⟩]) :=
  ⟨by decide,
    get_logs_sorted_and_bounded dbW8 "k1" 50 [⟨1, "/check-limit", "success"⟩]
      (by decide) (by decide)⟩

/-- Claim C9 counterexample: `register` performs no validation of the
requested quota, so registering with `rate_limit = 0` reaches a state whose
directory stores a credential with quota 0 — refuting the claim that every
stored quota is ≥ 1. -/
theorem register_stores_zero_quota :
    Reachable (register initDB "z@x.com" 0 "k9" 0).2 ∧
      lookupKey (register initDB "z@x.com" 0 "k9" 0).2 "k9" = some 0 :=
  ⟨Reachable.step Reachable.init (Step.registerStep "z@x.com" 0 "k9" 0 initDB),
    by decide⟩

/-- Claim C9 (amended): `register` stores the caller-supplied quota
unchanged (the field only defaults to 100 when omitted): a registration
with a fresh email and key stores exactly the requested `rate_limit`,
whether or not it is positive — no positivity check exists. -/
theorem register_stores_given_quota (db : DB) (email : String) (q : Int)
    (g : String) (now : Nat)
    (h1 : db.api_keys.any (fun row => row.email == email) = false)
    (h2 : db.api_keys.any (fun row => row.api_key == g) = false) :
    lookupKey (register db email q g now).2 g = some q := by
  rw [register_ok db email q g now h1 h2]
  dsimp only
  have hf : db.api_keys.find? (fun row => row.api_key == g) = none :=
    List.find?_eq_none.mpr (List.any_eq_false.mp h2)
  have hl : lookupKey db g = none := by
    unfold lookupKey
    rw [hf]
    rfl
  rw [lookupKey_append_row, hl]
  simp [Option.or]

theorem register_stores_given_quota_witness :
    lookupKey (register initDB "w@x.com" 100 "k10" 0).2 "k10" = some 100 :=
  register_stores_given_quota initDB "w@x.com" 100 "k10" 0 rfl rfl

/-- Claim C10: `get_logs` is a pure read — for every key (known or unknown)
and every limit it returns the database unchanged, never appending a
record. -/
theorem get_logs_pure_read (db : DB) (k : String) (limit : Int) :
    (get_logs db k limit).2 = db := by
  unfold get_logs
  split <;> rfl

/-- Claim C1: the count-then-append of `check_limit` is NOT atomic per
credential. Starting from the reachable database `dbR` (credential `k1`
with quota 1, empty ledger), the interleaving read-count, read-count,
append, append of two concurrent checks lets both calls read `used = 0 =
quota - 1` and both admit: the final ledger holds 2 Admitted records in the
window against a quota of 1. The source takes no lock and uses a separate
SQLite transaction for the count and for the insert, so this schedule is
allowed — the spec itself flags exactly this race as a defect of the
original code. -/
theorem check_race_overadmits :
    ∃ s : ConcState,
      ConcReach "k1" 1 5 ⟨dbR, ThreadPhase.start, ThreadPhase.start⟩ s ∧
      s.t1 = ThreadPhase.finished true ∧
      s.t2 = ThreadPhase.finished true ∧
      spec_count_admitted s.db "k1" (dateOf 5) = 2 ∧
      lookupKey dbR "k1" = some 1 := by
  refine ⟨⟨add_log (add_log dbR "k1" 5 "/check-limit" "success")
      "k1" 5 "/check-limit" "success",
      ThreadPhase.finished true, ThreadPhase.finished true⟩,
    ?_, rfl, rfl, by decide, by decide⟩
  exact Relation.ReflTransGen.head
    (ConcStep.stepLeft (ThreadStep.readCount dbR))
    (Relation.ReflTransGen.head
      (ConcStep.stepRight (ThreadStep.readCount dbR))
      (Relation.ReflTransGen.head
        (ConcStep.stepLeft (ThreadStep.appendAdmit dbR 0 (by decide)))
        (Relation.ReflTransGen.single
          (ConcStep.stepRight (ThreadStep.appendAdmit
            (add_log dbR "k1" 5 "/check-limit" "success") 0 (by decide))))))
